import Mathlib

/-!
Verification development for the raydium-library common crate: the sendable
signing-key wrapper (keypair.rs) and the asynchronous transaction pipeline
(rpc_async.rs). Pure plumbing of the two source files is embedded directly;
the external collaborators they call (the ledger RPC client, the base-58
codec and the signature scheme of the SDK) are modelled from the spec, as
marked in the doc comments below.
-/

set_option maxRecDepth 4096

/-- Outcome of a Rust function call in the embedding: a normal return value,
a returned error (the Err branch of a Result), or an abort through panic
(what unwrap does on Err or None). -/
inductive PanicOr (ε α : Type) where
  | ok : α → PanicOr ε α
  | error : ε → PanicOr ε α
  | panicked : String → PanicOr ε α
deriving DecidableEq

/-- True exactly when the outcome is a returned error value. -/
def PanicOr.isError {ε α : Type} : PanicOr ε α → Bool
  | .error _ => true
  | _ => false

/-- A 32-byte public identity, kept as its list of byte values. -/
abbrev Pubkey := List Nat

/-- Big-endian value of a digit string in the given base
(byte strings are base 256, base-58 digit strings base 58). -/
def beVal (base : Nat) (l : List Nat) : Nat :=
  l.foldl (fun a d => a * base + d) 0

/-- Big-endian digits of a natural number, produced by repeated division;
the first argument is fuel that any bound of at least n satisfies. -/
def digitsBE (base : Nat) : Nat → Nat → List Nat
  | 0, _ => []
  | fuel + 1, n => if n = 0 then [] else digitsBE base fuel (n / base) ++ [n % base]

/-- Big-endian base-58 digits of a natural number, most significant first. -/
def natToB58Digits (n : Nat) : List Nat := digitsBE 58 n n

/-- Big-endian bytes of a natural number, most significant first, with no
leading zero byte. -/
def natToBytesBE (n : Nat) : List Nat := digitsBE 256 n n

/-- The 58-character alphabet of the Bitcoin-style base-58 encoding used by
the textual key representation. -/
def b58Alphabet : List Char :=
  ['1', '2', '3', '4', '5', '6', '7', '8', '9',
   'A', 'B', 'C', 'D', 'E', 'F', 'G', 'H', 'J', 'K', 'L', 'M', 'N',
   'P', 'Q', 'R', 'S', 'T', 'U', 'V', 'W', 'X', 'Y', 'Z',
   'a', 'b', 'c', 'd', 'e', 'f', 'g', 'h', 'i', 'j', 'k', 'm', 'n',
   'o', 'p', 'q', 'r', 's', 't', 'u', 'v', 'w', 'x', 'y', 'z']

/-- Value of one base-58 character, none when the character is not in the
alphabet. -/
def b58Value (c : Char) : Option Nat :=
  if c ∈ b58Alphabet then some (b58Alphabet.indexOf c) else none

/-- Applies a fallible step to every element, failing at the first failure:
the shape of both the decode loop of the base-58 collaborator and the
keypair-reconstruction loop of build_txn. -/
def mapOpt {α β : Type} (f : α → Option β) : List α → Option (List β)
  | [] => some []
  | x :: xs =>
    match f x, mapOpt f xs with
    | some y, some ys => some (y :: ys)
    | _, _ => none

/-- Modelled from the spec: the base-58 textual encoding of a byte string
used by the external codec collaborator — one alphabet character per
leading zero byte, then the big-endian base-58 digits of the value. -/
def base58Encode (b : List Nat) : List Char :=
  List.replicate (b.takeWhile (fun x => x == 0)).length '1'
    ++ (natToB58Digits (beVal 256 b)).map (fun d => b58Alphabet.getD d '1')

/-- Modelled from the spec: base-58 decoding by the external codec
collaborator — none when any character is outside the alphabet, otherwise
one zero byte per leading unit character followed by the big-endian bytes
of the accumulated value. -/
def base58Decode (s : List Char) : Option (List Nat) :=
  match mapOpt b58Value s with
  | none => none
  | some ds =>
    some (List.replicate (s.takeWhile (fun c => c == '1')).length 0
      ++ natToBytesBE (beVal 58 ds))

/-- Modelled from the spec: the transient, non-shareable key-pair value of
the external signature scheme, as the 64-byte canonical encoding it is
reconstructed from (secret half then public half). Point-validity of the
public half is internal to the external scheme and out of scope; the
reconstruction accepts exactly the buffers of length 64. -/
structure SdkKeypair where
  bytes : List Nat
deriving DecidableEq

/-- Reconstruction of the transient signing context from raw bytes; fails
unless given exactly 64 bytes. -/
def SdkKeypair.from_bytes (b : List Nat) : Option SdkKeypair :=
  if b.length = 64 then some ⟨b⟩ else none

/-- Canonical 64-byte encoding of a reconstructed key pair. -/
def SdkKeypair.to_bytes (kp : SdkKeypair) : List Nat := kp.bytes

/-- Public identity of a reconstructed key pair: the public half of the
64-byte encoding. -/
def SdkKeypair.pubkey (kp : SdkKeypair) : Pubkey := kp.bytes.drop 32

/-- Textual export of a key pair through the base-58 codec collaborator. -/
def SdkKeypair.to_base58_string (kp : SdkKeypair) : List Char :=
  base58Encode kp.bytes

/-- Modelled from the spec: the SDK constructor that decodes base-58 text
and unwraps both the decode and the byte-reconstruction, so either failure
aborts by panic. -/
def SdkKeypair.from_base58_string (s : List Char) : PanicOr Empty SdkKeypair :=
  match base58Decode s with
  | none => .panicked "called unwrap on an Err value"
  | some bytes =>
    match SdkKeypair.from_bytes bytes with
    | none => .panicked "called unwrap on an Err value"
    | some kp => .ok kp

/-- The sendable signing-key wrapper of keypair.rs: it owns exactly the 64
key-material bytes and nothing else. -/
structure Keypair where
  keypair : List Nat
deriving DecidableEq

/-- Keypair.from_keypair of keypair.rs: stores the canonical bytes of an
existing transient key pair. -/
def Keypair.from_keypair (kp : SdkKeypair) : Keypair :=
  ⟨kp.to_bytes⟩

/-- SendableSigner.to_keypair of keypair.rs: rebuilds the transient key
pair from the stored bytes, unwrapping the reconstruction. -/
def Keypair.to_keypair (k : Keypair) : PanicOr Empty SdkKeypair :=
  match SdkKeypair.from_bytes k.keypair with
  | none => .panicked "called unwrap on an Err value"
  | some kp => .ok kp

/-- Keypair.from_base58_string of keypair.rs: builds the wrapper from the
bytes of the SDK constructor's result; any failure inside that constructor
is a panic, never a returned error. -/
def Keypair.from_base58_string (s : List Char) : PanicOr Empty Keypair :=
  match SdkKeypair.from_base58_string s with
  | .ok kp => .ok ⟨kp.to_bytes⟩
  | .error e => .error e
  | .panicked m => .panicked m

/-- The Display implementation of keypair.rs: rebuilds the transient key
pair (error () standing for fmt::Error when the bytes are rejected) and
prints its base-58 form. -/
def Keypair.toText (k : Keypair) : Except Unit (List Char) :=
  match SdkKeypair.from_bytes k.keypair with
  | none => .error ()
  | some kp => .ok kp.to_base58_string

/-- A recent-blockhash value: the freshness checkpoint fetched from the
network, opaque to the core. -/
structure Hash where
  val : Nat
deriving DecidableEq

/-- Commitment levels of the ledger network, an opaque enum the core
forwards; the read path pins the processed level. -/
inductive Commitment where
  | processed
  | confirmed
  | finalized
deriving DecidableEq

/-- One account reference inside an instruction, with its signer and
writability flags. -/
structure AccountMeta where
  pubkey : Pubkey
  is_signer : Bool
  is_writable : Bool
deriving DecidableEq

/-- One ledger instruction: a program address, the accounts it touches and
its opaque data bytes. -/
structure Instruction where
  program_id : Pubkey
  accounts : List AccountMeta
  data : List Nat
deriving DecidableEq

/-- Modelled from the spec: the transaction message — the ordered
instructions, the designated fee payer and the freshness checkpoint all
signers sign over. -/
structure Message where
  instructions : List Instruction
  fee_payer : Pubkey
  recent_blockhash : Hash
deriving DecidableEq

/-- First-occurrence deduplication with an accumulator of already-seen
keys. -/
def dedupFirstAux (seen : List Pubkey) : List Pubkey → List Pubkey
  | [] => []
  | x :: xs =>
    if x ∈ seen then dedupFirstAux seen xs
    else x :: dedupFirstAux (x :: seen) xs

/-- Modelled from the spec: the required signers of a message — the fee
payer first, then every instruction account flagged as a signer, in first
occurrence order without duplicates. -/
def Message.requiredSigners (m : Message) : List Pubkey :=
  dedupFirstAux []
    (m.fee_payer ::
      (m.instructions.flatMap fun i =>
        (i.accounts.filter (fun a => a.is_signer)).map (fun a => a.pubkey)))

/-- Message.new_with_blockhash of the SDK, modelled from the spec:
constructs the message from instructions, fee payer and checkpoint. -/
def Message.new_with_blockhash (instructions : List Instruction)
    (fee_payer : Pubkey) (blockhash : Hash) : Message :=
  ⟨instructions, fee_payer, blockhash⟩

/-- Modelled from the spec: a signature produced by the external scheme,
keyed to the signer's public identity and to the exact message it signed. -/
structure SigVal where
  signer : Pubkey
  signed_message : Message
deriving DecidableEq

/-- Signing of the message bytes by a reconstructed key pair, modelled from
the spec as binding the signer's public identity to the message. -/
def sdkSign (kp : SdkKeypair) (m : Message) : SigVal :=
  ⟨kp.pubkey, m⟩

/-- Verification of a signature against a public identity and the message
bytes it is supposed to cover. -/
def sigVerify (pk : Pubkey) (m : Message) (s : SigVal) : Bool :=
  s.signer == pk && s.signed_message == m

/-- A transaction: one signature slot per required signer of its message
(none while unsigned), plus the message itself. -/
structure Transaction where
  signatures : List (Option SigVal)
  message : Message
deriving DecidableEq

/-- Transaction.new_unsigned of the SDK, modelled from the spec: every
signature slot of the required signers starts empty. -/
def Transaction.new_unsigned (m : Message) : Transaction :=
  ⟨List.replicate m.requiredSigners.length none, m⟩

/-- Index of the first element satisfying a predicate, none when there is
none. -/
def findIdxOpt {α : Type} (p : α → Bool) : List α → Option Nat
  | [] => none
  | x :: xs => if p x then some 0 else (findIdxOpt p xs).map (fun i => i + 1)

/-- Places each produced signature into its signer's slot, in the supplied
order. -/
def placeSigs (sigs : List (Option SigVal)) : List (Nat × SigVal) → List (Option SigVal)
  | [] => sigs
  | (i, s) :: rest => placeSigs (sigs.set i (some s)) rest

/-- Transaction.try_partial_sign of the SDK, modelled from the spec: resets
the checkpoint (clearing stale signatures if it changed), locates every
supplied key among the required signers — failing if any key is not a
required signer — and attaches each key's signature over the message in
the caller-supplied order. -/
def Transaction.try_partial_sign (t : Transaction) (kps : List SdkKeypair)
    (recent_blockhash : Hash) : Except String Transaction :=
  let t :=
    if t.message.recent_blockhash = recent_blockhash then t
    else ⟨List.replicate t.signatures.length none,
      ⟨t.message.instructions, t.message.fee_payer, recent_blockhash⟩⟩
  match mapOpt (fun kp => findIdxOpt (fun pk => pk == kp.pubkey) t.message.requiredSigners) kps with
  | none => .error "keypair-pubkey mismatch"
  | some positions =>
    .ok ⟨placeSigs t.signatures (positions.zip (kps.map (fun kp => sdkSign kp t.message))),
      t.message⟩

/-- One on-chain account as returned by the network: balance, raw data
bytes and owning program. -/
structure Account where
  lamports : Nat
  data : List Nat
  owner : Pubkey
deriving DecidableEq

/-- RpcSendTransactionConfig: the submission options; the fields other than
skip_preflight keep their defaults in every call site of the core. -/
structure RpcSendTransactionConfig where
  skip_preflight : Bool
  preflight_commitment : Option Commitment
  max_retries : Option Nat
deriving DecidableEq

/-- An opaque account-query filter, forwarded verbatim to the network
collaborator. -/
structure RpcFilterType where
  id : Nat
deriving DecidableEq

/-- Account-data encodings the program-accounts query can request. -/
inductive UiAccountEncoding where
  | base64
  | base64Zstd
  | jsonParsed
deriving DecidableEq

/-- RpcAccountInfoConfig: the per-account options of the program-accounts
query. -/
structure RpcAccountInfoConfig where
  encoding : Option UiAccountEncoding
  commitment : Option Commitment
deriving DecidableEq

/-- RpcProgramAccountsConfig: filters, account options and context flag of
the program-accounts query. -/
structure RpcProgramAccountsConfig where
  filters : Option (List RpcFilterType)
  account_config : RpcAccountInfoConfig
  with_context : Option Bool
deriving DecidableEq

/-- A transport-level failure of one network round-trip. -/
structure RpcError where
  msg : String
deriving DecidableEq

/-- One request the core sends to the network collaborator, with the exact
arguments it passed. -/
inductive RpcCall where
  | getLatestBlockhash
  | getAccountWithCommitment (addr : Pubkey) (commitment : Commitment)
  | sendTransactionWithConfig (txn : Transaction) (config : RpcSendTransactionConfig)
  | getProgramAccountsWithConfig (program : Pubkey) (config : RpcProgramAccountsConfig)
deriving DecidableEq

/-- Modelled from the spec: the opaque asynchronous network collaborator,
as the responses it gives to each request of one pipeline invocation. -/
structure RpcClient where
  getLatestBlockhash : Except RpcError Hash
  getAccountWithCommitment : Pubkey → Commitment → Except RpcError (Option Account)
  sendTransactionWithConfig : Transaction → RpcSendTransactionConfig → Except RpcError Nat
  getProgramAccountsWithConfig :
    Pubkey → RpcProgramAccountsConfig → Except RpcError (List (Pubkey × Account))

/-- build_txn of rpc_async.rs: fetches the checkpoint (unwrapping, so a
fetch failure panics), builds the unsigned message, reconstructs every
supplied key from its 64 bytes (unwrapping, so a bad key panics), and
partially signs (unwrapping, so a signing failure panics); the paired list
records the network requests made. -/
def build_txn (client : RpcClient) (instructions : List Instruction)
    (fee_payer : Pubkey) (signing_keypairs_sendable : List (List Nat)) :
    PanicOr RpcError Transaction × List RpcCall :=
  match client.getLatestBlockhash with
  | .error _ => (.panicked "called unwrap on an Err value", [.getLatestBlockhash])
  | .ok blockhash =>
    let message := Message.new_with_blockhash instructions fee_payer blockhash
    let transaction := Transaction.new_unsigned message
    match mapOpt SdkKeypair.from_bytes signing_keypairs_sendable with
    | none => (.panicked "called unwrap on an Err value", [.getLatestBlockhash])
    | some signing_keypairs =>
      match transaction.try_partial_sign signing_keypairs blockhash with
      | .error _ => (.panicked "called unwrap on an Err value", [.getLatestBlockhash])
      | .ok signed => (.ok signed, [.getLatestBlockhash])

/-- send_without_confirm_txn of rpc_async.rs: submits with a config whose
skip_preflight is the constant true (all other options defaulted) and
propagates any network error with the question-mark operator. -/
def send_without_confirm_txn (client : RpcClient) (txn : Transaction) :
    PanicOr RpcError Nat × List RpcCall :=
  let config : RpcSendTransactionConfig :=
    { skip_preflight := true, preflight_commitment := none, max_retries := none }
  (match client.sendTransactionWithConfig txn config with
    | .error e => .error e
    | .ok sig => .ok sig,
   [.sendTransactionWithConfig txn config])

/-- get_account of rpc_async.rs: one round-trip at the processed
commitment; a network failure propagates as a returned error, an absent
account gives ok none, an existing account gives ok of its data bytes. -/
def get_account (client : RpcClient) (addr : Pubkey) :
    PanicOr RpcError (Option (List Nat)) × List RpcCall :=
  (match client.getAccountWithCommitment addr Commitment.processed with
    | .error e => .error e
    | .ok (some account) => .ok (some account.data)
    | .ok none => .ok none,
   [.getAccountWithCommitment addr Commitment.processed])

/-- get_anchor_account of rpc_async.rs over a caller type T with its
pluggable discriminator-checking deserializer: network failures propagate
as returned errors, absence gives ok none, and a deserializer mismatch is
unwrapped, so it panics. -/
def get_anchor_account {T : Type} (try_deserialize : List Nat → Except String T)
    (client : RpcClient) (addr : Pubkey) :
    PanicOr RpcError (Option T) × List RpcCall :=
  (match client.getAccountWithCommitment addr Commitment.processed with
    | .error e => .error e
    | .ok (some account) =>
      match try_deserialize account.data with
      | .error _ => .panicked "called unwrap on an Err value"
      | .ok ret => .ok (some ret)
    | .ok none => .ok none,
   [.getAccountWithCommitment addr Commitment.processed])

/-- get_program_accounts_with_filters of rpc_async.rs: forwards the filters
verbatim with base64-zstd encoding and no context, and unwraps the network
response, so a network failure panics and the error branch of the returned
Result is never used. -/
def get_program_accounts_with_filters (client : RpcClient) (program : Pubkey)
    (filters : Option (List RpcFilterType)) :
    PanicOr RpcError (List (Pubkey × Account)) × List RpcCall :=
  let config : RpcProgramAccountsConfig :=
    { filters := filters,
      account_config := { encoding := some UiAccountEncoding.base64Zstd, commitment := none },
      with_context := some false }
  (match client.getProgramAccountsWithConfig program config with
    | .error _ => .panicked "called unwrap on an Err value"
    | .ok accounts => .ok accounts,
   [.getProgramAccountsWithConfig program config])

/-! Helper lemmas on the base-58 model, leading to the textual round-trip. -/

theorem mapOpt_append {α β : Type} (f : α → Option β) {l1 l2 : List α} {r1 r2 : List β}
    (h1 : mapOpt f l1 = some r1) (h2 : mapOpt f l2 = some r2) :
    mapOpt f (l1 ++ l2) = some (r1 ++ r2) := by
  induction l1 generalizing r1 with
  | nil =>
    simp only [mapOpt, Option.some.injEq] at h1
    subst h1
    simpa using h2
  | cons x xs ih =>
    simp only [mapOpt, List.cons_append] at h1 ⊢
    cases hfx : f x with
    | none => rw [hfx] at h1; exact absurd h1 (by simp)
    | some y =>
      rw [hfx] at h1
      cases hxs : mapOpt f xs with
      | none => rw [hxs] at h1; exact absurd h1 (by simp)
      | some ys =>
        rw [hxs] at h1
        simp only [Option.some.injEq] at h1
        subst h1
        simp only [List.append_eq]
        rw [ih hxs]
        rfl

theorem b58Value_getD : ∀ d, d < 58 → b58Value (b58Alphabet.getD d '1') = some d := by
  decide

theorem b58_getD_ne_one : ∀ d, d < 58 → d ≠ 0 → (b58Alphabet.getD d '1' == '1') = false := by
  decide

theorem mapOpt_b58_replicate_one (z : Nat) :
    mapOpt b58Value (List.replicate z '1') = some (List.replicate z 0) := by
  induction z with
  | zero => rfl
  | succ k ih =>
    have h1 : b58Value '1' = some 0 := by decide
    simp [List.replicate_succ, mapOpt, h1, ih]

theorem mapOpt_b58_map (l : List Nat) (hl : ∀ d ∈ l, d < 58) :
    mapOpt b58Value (l.map fun d => b58Alphabet.getD d '1') = some l := by
  induction l with
  | nil => rfl
  | cons d t ih =>
    have hd : b58Value (b58Alphabet.getD d '1') = some d :=
      b58Value_getD d (hl d (List.mem_cons_self d t))
    have ht := ih (fun x hx => hl x (List.mem_cons_of_mem d hx))
    simp only [List.map_cons, mapOpt]
    rw [hd, ht]

theorem takeWhile_replicate_append {α : Type} (p : α → Bool) (c : α) (hc : p c = true)
    (z : Nat) (t : List α) :
    List.takeWhile p (List.replicate z c ++ t) = List.replicate z c ++ List.takeWhile p t := by
  induction z with
  | zero => simp
  | succ k ih => simp [List.replicate_succ, List.takeWhile_cons, hc, ih]

theorem beVal_replicate_zero (base z : Nat) (l : List Nat) :
    beVal base (List.replicate z 0 ++ l) = beVal base l := by
  induction z with
  | zero => simp
  | succ k ih =>
    simp only [List.replicate_succ, List.cons_append, beVal, List.foldl_cons] at *
    simpa using ih

theorem beVal_eq_ofDigits (base : Nat) (l : List Nat) :
    beVal base l = Nat.ofDigits base l.reverse := by
  induction l using List.reverseRecOn with
  | nil => simp [beVal, Nat.ofDigits_nil]
  | append_singleton xs d ih =>
    rw [beVal, List.foldl_append, List.foldl_cons, List.foldl_nil, List.reverse_append]
    simp only [List.reverse_cons, List.reverse_nil, List.nil_append, List.singleton_append]
    rw [Nat.ofDigits_cons]
    have : xs.foldl (fun a d => a * base + d) 0 = beVal base xs := rfl
    rw [this, ih]
    ring

theorem digitsBE_eq (base : Nat) (hb : 2 ≤ base) :
    ∀ fuel n, n ≤ fuel → digitsBE base fuel n = (Nat.digits base n).reverse := by
  intro fuel
  induction fuel with
  | zero =>
    intro n hn
    have : n = 0 := Nat.le_zero.mp hn
    subst this
    simp [digitsBE]
  | succ k ih =>
    intro n hn
    by_cases h0 : n = 0
    · subst h0; simp [digitsBE]
    · have hdiv : n / base ≤ k := by
        have := Nat.div_lt_self (Nat.pos_of_ne_zero h0) (by omega : 1 < base)
        omega
      rw [show digitsBE base (k + 1) n
          = if n = 0 then [] else digitsBE base k (n / base) ++ [n % base] from rfl]
      rw [if_neg h0, ih (n / base) hdiv,
        Nat.digits_def' (by omega : 1 < base) (Nat.pos_of_ne_zero h0)]
      simp

theorem head?_dropWhile_false {α : Type} (p : α → Bool) (l : List α) :
    ∀ x, (l.dropWhile p).head? = some x → p x = false := by
  induction l with
  | nil => intro x h; simp [List.dropWhile] at h
  | cons a t ih =>
    intro x h
    by_cases ha : p a
    · rw [List.dropWhile_cons_of_pos ha] at h
      exact ih x h
    · rw [List.dropWhile_cons_of_neg ha] at h
      simp only [List.head?_cons, Option.some.injEq] at h
      subst h
      simpa using ha

theorem takeWhile_zero_eq_replicate (b : List Nat) :
    b.takeWhile (fun x => x == 0)
      = List.replicate (b.takeWhile (fun x => x == 0)).length 0 := by
  apply List.eq_replicate_of_mem
  intro x hx
  have := List.mem_takeWhile_imp hx
  simpa using this

theorem base58Decode_eq (s : List Char) (ds : List Nat)
    (h : mapOpt b58Value s = some ds) :
    base58Decode s
      = some (List.replicate (s.takeWhile (fun c => c == '1')).length 0
          ++ natToBytesBE (beVal 58 ds)) := by
  rw [base58Decode, h]

/-- Round-trip of the base-58 codec model: decoding the encoding of any
byte string gives back exactly that byte string. -/
theorem base58_roundtrip (b : List Nat) (hb : ∀ x ∈ b, x < 256) :
    base58Decode (base58Encode b) = some b := by
  have hsplit : List.replicate (b.takeWhile (fun x => x == 0)).length 0
      ++ b.dropWhile (fun x => x == 0) = b := by
    rw [← takeWhile_zero_eq_replicate]
    exact List.takeWhile_append_dropWhile _ _
  have hrestmem : ∀ x ∈ (b.dropWhile (fun x => x == 0)).reverse, x < 256 := by
    intro x hx
    apply hb
    rw [← hsplit]
    exact List.mem_append_right _ (List.mem_reverse.mp hx)
  have hval : beVal 256 b = Nat.ofDigits 256 (b.dropWhile (fun x => x == 0)).reverse := by
    conv_lhs => rw [← hsplit]
    rw [beVal_replicate_zero, beVal_eq_ofDigits]
  cases hrest : b.dropWhile (fun x => x == 0) with
  | nil =>
    have hv0 : beVal 256 b = 0 := by
      rw [hval, hrest]
      simp [Nat.ofDigits_nil]
    have henc : base58Encode b
        = List.replicate (b.takeWhile (fun x => x == 0)).length '1' := by
      rw [base58Encode, hv0]
      rw [show natToB58Digits 0 = [] from rfl]
      simp
    rw [henc, base58Decode_eq _ _ (mapOpt_b58_replicate_one _)]
    have htw : List.takeWhile (fun c => c == '1')
        (List.replicate (b.takeWhile (fun x => x == 0)).length '1')
        = List.replicate (b.takeWhile (fun x => x == 0)).length '1' := by
      have h2 := takeWhile_replicate_append (fun c => c == '1') '1' (by decide)
        (b.takeWhile (fun x => x == 0)).length []
      simp only [List.takeWhile_nil, List.append_nil] at h2
      exact h2
    rw [htw, List.length_replicate]
    have hbv : beVal 58 (List.replicate (b.takeWhile (fun x => x == 0)).length 0) = 0 := by
      have h3 := beVal_replicate_zero 58 (b.takeWhile (fun x => x == 0)).length []
      simpa [beVal] using h3
    rw [hbv, show natToBytesBE 0 = [] from rfl, List.append_nil]
    conv_rhs => rw [← hsplit, hrest, List.append_nil]
  | cons r0 rtail =>
    have hr0 : (r0 == 0) = false := by
      apply head?_dropWhile_false (fun x => x == 0) b
      rw [hrest]
      rfl
    have hr0ne : r0 ≠ 0 := by simpa using hr0
    have hglast : ∀ h : (b.dropWhile (fun x => x == 0)).reverse ≠ [],
        ((b.dropWhile (fun x => x == 0)).reverse).getLast h ≠ 0 := by
      intro h
      have h1 : ((b.dropWhile (fun x => x == 0)).reverse).getLast? = some r0 := by
        rw [List.getLast?_reverse, hrest]
        rfl
      rw [List.getLast?_eq_getLast _ h] at h1
      simp only [Option.some.injEq] at h1
      rw [h1]
      exact hr0ne
    have hdig : Nat.digits 256 (beVal 256 b) = (b.dropWhile (fun x => x == 0)).reverse := by
      rw [hval]
      exact Nat.digits_ofDigits 256 (by norm_num) _ hrestmem hglast
    have hn0 : beVal 256 b ≠ 0 := by
      intro h
      rw [h, Nat.digits_zero] at hdig
      rw [hrest] at hdig
      simp at hdig
    have h58 : natToB58Digits (beVal 256 b) = (Nat.digits 58 (beVal 256 b)).reverse :=
      digitsBE_eq 58 (by norm_num) _ _ le_rfl
    have hdne : Nat.digits 58 (beVal 256 b) ≠ [] :=
      Nat.digits_ne_nil_iff_ne_zero.mpr hn0
    cases hrev : (Nat.digits 58 (beVal 256 b)).reverse with
    | nil => exact absurd (List.reverse_eq_nil_iff.mp hrev) hdne
    | cons d t =>
      have hdlast : (Nat.digits 58 (beVal 256 b)).getLast? = some d := by
        rw [← List.head?_reverse, hrev]
        rfl
      have hdne0 : d ≠ 0 := by
        have h1 := List.getLast?_eq_getLast _ hdne
        rw [hdlast] at h1
        simp only [Option.some.injEq] at h1
        rw [h1]
        exact Nat.getLast_digit_ne_zero 58 hn0
      have hdmem : ∀ x ∈ d :: t, x < 58 := by
        intro x hx
        apply Nat.digits_lt_base (by norm_num : 1 < 58)
        rw [← List.mem_reverse, hrev]
        exact hx
      have hdrev : (d :: t).reverse = Nat.digits 58 (beVal 256 b) := by
        rw [← hrev, List.reverse_reverse]
      have henc2 : base58Encode b
          = List.replicate (b.takeWhile (fun x => x == 0)).length '1'
            ++ (d :: t).map (fun x => b58Alphabet.getD x '1') := by
        rw [base58Encode]
        rw [show natToB58Digits (beVal 256 b) = d :: t from by rw [h58, hrev]]
      have hmap : mapOpt b58Value
          (List.replicate (b.takeWhile (fun x => x == 0)).length '1'
            ++ (d :: t).map (fun x => b58Alphabet.getD x '1'))
          = some (List.replicate (b.takeWhile (fun x => x == 0)).length 0 ++ d :: t) :=
        mapOpt_append b58Value (mapOpt_b58_replicate_one _) (mapOpt_b58_map _ hdmem)
      rw [henc2, base58Decode_eq _ _ hmap]
      rw [takeWhile_replicate_append (fun c => c == '1') '1' (by decide)]
      have htw2 : List.takeWhile (fun c => c == '1')
          ((d :: t).map (fun x => b58Alphabet.getD x '1')) = [] := by
        rw [List.map_cons, List.takeWhile_cons,
          b58_getD_ne_one d (hdmem d (List.mem_cons_self d t)) hdne0]
        simp
      rw [htw2, List.append_nil, List.length_replicate]
      rw [beVal_replicate_zero, beVal_eq_ofDigits, hdrev, Nat.ofDigits_digits]
      rw [show natToBytesBE (beVal 256 b) = (Nat.digits 256 (beVal 256 b)).reverse from
        digitsBE_eq 256 (by norm_num) _ _ le_rfl]
      rw [hdig, List.reverse_reverse, hsplit]




/-! Fixtures: concrete collaborators used to exercise the pipeline. -/

/-- A network collaborator every round-trip of which fails at the
transport level. -/
def failingClient : RpcClient :=
  ⟨.error ⟨"connection refused"⟩,
   fun _ _ => .error ⟨"connection refused"⟩,
   fun _ _ => .error ⟨"connection refused"⟩,
   fun _ _ => .error ⟨"connection refused"⟩⟩

/-- A healthy network collaborator: a fixed checkpoint, one stored account
with data bytes 1, 2, 3, and empty batch results. -/
def okClient : RpcClient :=
  ⟨.ok ⟨7⟩,
   fun addr _ =>
     if addr = List.replicate 32 1 then .ok (some ⟨5, [1, 2, 3], List.replicate 32 2⟩)
     else .ok none,
   fun _ _ => .ok 99,
   fun _ _ => .ok []⟩

/-- A demonstration instruction touching no accounts. -/
def demoInstr : Instruction := ⟨List.replicate 32 9, [], [5]⟩

/-- A demonstration transaction with no signature slots. -/
def demoTxn : Transaction := ⟨[], ⟨[], List.replicate 32 0, ⟨0⟩⟩⟩

/-- A demonstration discriminator-checking deserializer for a caller type:
it accepts data opening with the eight-byte tag 1 to 8 and returns the
remaining bytes, rejecting any other prefix. -/
def demoDeserialize (data : List Nat) : Except String (List Nat) :=
  if data.take 8 = [1, 2, 3, 4, 5, 6, 7, 8] then .ok (data.drop 8)
  else .error "account discriminator mismatch"

/-! Helper lemmas on signer deduplication. -/

theorem dedupFirstAux_all_seen (seen : List Pubkey) (l : List Pubkey)
    (h : ∀ x ∈ l, x ∈ seen) : dedupFirstAux seen l = [] := by
  induction l with
  | nil => rfl
  | cons x xs ih =>
    rw [dedupFirstAux, if_pos (h x (List.mem_cons_self x xs))]
    exact ih (fun y hy => h y (List.mem_cons_of_mem x hy))

theorem dedupFirstAux_single (P : Pubkey) (l : List Pubkey)
    (h : ∀ x ∈ l, x = P) : dedupFirstAux [] (P :: l) = [P] := by
  rw [dedupFirstAux, if_neg (List.not_mem_nil P)]
  rw [dedupFirstAux_all_seen [P] l]
  intro x hx
  rw [h x hx]
  exact List.mem_cons_self P []

/-! Claim C2: Keypair.from_base58_string on invalid input. -/

/-- C2 counterexample: the character 0 is outside the base-58 alphabet, yet
from_base58_string given the text made of it panics instead of returning a
DecodeError value to the caller (its Rust signature returns Self and cannot
carry an error at all). -/
theorem from_base58_invalid_panics_counterexample :
    Keypair.from_base58_string ['0'] = .panicked "called unwrap on an Err value" := by
  decide

/-- C2 (amended): for text that is not valid base-58 or does not decode to
exactly 64 bytes, Keypair.from_base58_string aborts by panic rather than
returning a DecodeError; for text decoding to exactly 64 bytes it returns
the Key holding the decoded bytes. -/
theorem from_base58_string_spec (s : List Char) :
    (base58Decode s = none →
      Keypair.from_base58_string s = .panicked "called unwrap on an Err value")
    ∧ (∀ bytes, base58Decode s = some bytes → bytes.length ≠ 64 →
      Keypair.from_base58_string s = .panicked "called unwrap on an Err value")
    ∧ (∀ bytes, base58Decode s = some bytes → bytes.length = 64 →
      Keypair.from_base58_string s = .ok ⟨bytes⟩) := by
  refine ⟨?_, ?_, ?_⟩
  · intro h
    rw [Keypair.from_base58_string, SdkKeypair.from_base58_string, h]
  · intro bytes h hne
    simp [Keypair.from_base58_string, SdkKeypair.from_base58_string, h,
      SdkKeypair.from_bytes, hne]
  · intro bytes h he
    simp [Keypair.from_base58_string, SdkKeypair.from_base58_string, h,
      SdkKeypair.from_bytes, he, SdkKeypair.to_bytes]

/-- C2 witness: the three branches of the amended claim at concrete texts —
a non-alphabet character, a one-byte decoding, and a 64-byte decoding. -/
theorem from_base58_string_spec_witness :
    Keypair.from_base58_string ['O'] = .panicked "called unwrap on an Err value"
    ∧ Keypair.from_base58_string ['z'] = .panicked "called unwrap on an Err value"
    ∧ Keypair.from_base58_string (List.replicate 64 '1')
      = .ok ⟨List.replicate 64 0⟩ :=
  ⟨(from_base58_string_spec ['O']).1 (by decide),
   (from_base58_string_spec ['z']).2.1 [57] (by decide) (by decide),
   (from_base58_string_spec (List.replicate 64 '1')).2.2 (List.replicate 64 0)
     (by decide) (by decide)⟩

/-! Claim C5: textual round-trip of a stored key. -/

/-- C5: for every key whose stored buffer is 64 bytes (byte values below
256), the textual export succeeds and decoding that text through
from_base58_string returns a Key byte-wise equal to the original. -/
theorem from_base58_toText_roundtrip (k : Keypair)
    (hlen : k.keypair.length = 64) (hbytes : ∀ x ∈ k.keypair, x < 256) :
    ∃ s, k.toText = .ok s ∧ Keypair.from_base58_string s = .ok k := by
  refine ⟨base58Encode k.keypair, ?_, ?_⟩
  · rw [Keypair.toText, SdkKeypair.from_bytes, if_pos hlen]
    rfl
  · simp [Keypair.from_base58_string, SdkKeypair.from_base58_string,
      base58_roundtrip k.keypair hbytes, SdkKeypair.from_bytes, hlen,
      SdkKeypair.to_bytes]

/-- C5 witness: the round-trip at the concrete all-zero 64-byte key. -/
theorem from_base58_toText_roundtrip_witness :
    ∃ s, (Keypair.mk (List.replicate 64 0)).toText = .ok s
      ∧ Keypair.from_base58_string s = .ok (Keypair.mk (List.replicate 64 0)) :=
  from_base58_toText_roundtrip ⟨List.replicate 64 0⟩ (by decide) (by decide)

/-! Claim C6: byte round-trip through the reconstructed key pair. -/

/-- C6: storing any 64-byte key material in the wrapper and reconstructing
the transient key pair through to_keypair succeeds and yields a pair whose
canonical bytes are exactly the stored material. -/
theorem to_keypair_roundtrip (b : List Nat) (hlen : b.length = 64) :
    ∃ kp, (Keypair.mk b).to_keypair = .ok kp ∧ SdkKeypair.to_bytes kp = b := by
  refine ⟨⟨b⟩, ?_, rfl⟩
  have hk : (Keypair.mk b).keypair = b := rfl
  rw [Keypair.to_keypair, hk, SdkKeypair.from_bytes, if_pos hlen]

/-- C6 witness: the byte round-trip at the concrete all-zero material. -/
theorem to_keypair_roundtrip_witness :
    ∃ kp, (Keypair.mk (List.replicate 64 0)).to_keypair = .ok kp
      ∧ SdkKeypair.to_bytes kp = List.replicate 64 0 :=
  to_keypair_roundtrip (List.replicate 64 0) (by decide)

/-! Claim C1: failure behaviour of build_txn. -/

/-- C1 counterexample: with a client whose checkpoint fetch fails, build_txn
panics instead of returning a NetworkUnavailable error value, so no error
of any kind surfaces to the caller as a return value. -/
theorem build_txn_fetch_failure_counterexample :
    (build_txn failingClient [] (List.replicate 32 0) []).1
        = .panicked "called unwrap on an Err value"
      ∧ ((build_txn failingClient [] (List.replicate 32 0) []).1).isError = false := by
  decide

/-- C1 (amended): every failure inside build_txn aborts by panic rather
than surfacing as a returned error value — the error branch of its Result
type is never used; a failed checkpoint fetch panics, a supplied key whose
64 bytes cannot be reconstructed panics, and a failed signing step
panics. -/
theorem build_txn_failures_panic (client : RpcClient)
    (instructions : List Instruction) (fee_payer : Pubkey)
    (keys : List (List Nat)) :
    ((build_txn client instructions fee_payer keys).1.isError = false)
    ∧ (∀ e, client.getLatestBlockhash = .error e →
        (build_txn client instructions fee_payer keys).1
          = .panicked "called unwrap on an Err value")
    ∧ (∀ bh, client.getLatestBlockhash = .ok bh →
        mapOpt SdkKeypair.from_bytes keys = none →
        (build_txn client instructions fee_payer keys).1
          = .panicked "called unwrap on an Err value")
    ∧ (∀ bh kps s, client.getLatestBlockhash = .ok bh →
        mapOpt SdkKeypair.from_bytes keys = some kps →
        (Transaction.new_unsigned
            (Message.new_with_blockhash instructions fee_payer bh)).try_partial_sign
            kps bh = .error s →
        (build_txn client instructions fee_payer keys).1
          = .panicked "called unwrap on an Err value") := by
  refine ⟨?_, ?_, ?_, ?_⟩
  · cases hbh : client.getLatestBlockhash with
    | error e => simp [build_txn, hbh, PanicOr.isError]
    | ok bh =>
      cases hm : mapOpt SdkKeypair.from_bytes keys with
      | none => simp [build_txn, hbh, hm, PanicOr.isError]
      | some kps =>
        cases hs : (Transaction.new_unsigned
            (Message.new_with_blockhash instructions fee_payer bh)).try_partial_sign
            kps bh with
        | error s => simp [build_txn, hbh, hm, hs, PanicOr.isError]
        | ok txn => simp [build_txn, hbh, hm, hs, PanicOr.isError]
  · intro e he
    simp [build_txn, he]
  · intro bh hbh hm
    simp [build_txn, hbh, hm]
  · intro bh kps s hbh hm hs
    simp [build_txn, hbh, hm, hs]

/-- C1 witness: the three panic modes at concrete inputs — a failing fetch,
a 1-byte key that cannot be reconstructed, and a well-formed key that is
not a required signer so signing fails. -/
theorem build_txn_failures_panic_witness :
    (build_txn failingClient [] (List.replicate 32 1) []).1
        = .panicked "called unwrap on an Err value"
    ∧ (build_txn okClient [] (List.replicate 32 1) [[1]]).1
        = .panicked "called unwrap on an Err value"
    ∧ (build_txn okClient [] (List.replicate 32 1) [List.replicate 64 5]).1
        = .panicked "called unwrap on an Err value" :=
  ⟨(build_txn_failures_panic failingClient [] (List.replicate 32 1) []).2.1
      ⟨"connection refused"⟩ rfl,
   (build_txn_failures_panic okClient [] (List.replicate 32 1) [[1]]).2.2.1
      ⟨7⟩ rfl (by decide),
   (build_txn_failures_panic okClient [] (List.replicate 32 1)
      [List.replicate 64 5]).2.2.2
      ⟨7⟩ [⟨List.replicate 64 5⟩] "keypair-pubkey mismatch" rfl (by decide) (by rfl)⟩

/-! Claim C4: the two-instruction one-key build scenario. -/

/-- C4: building with two instructions, fee payer P and exactly one
signing key whose public identity is P (the instructions declaring no
other signer) succeeds with exactly one attached signature, that signature
verifies against the key's public identity, and the message references the
checkpoint fetched during the same call. -/
theorem build_txn_two_instructions_one_key (client : RpcClient)
    (i1 i2 : Instruction) (P : Pubkey) (kbytes : List Nat) (bh : Hash)
    (hbh : client.getLatestBlockhash = .ok bh)
    (hlen : kbytes.length = 64)
    (hpk : kbytes.drop 32 = P)
    (hsigners : ∀ a ∈ i1.accounts ++ i2.accounts, a.is_signer = true → a.pubkey = P) :
    ∃ txn sig,
      (build_txn client [i1, i2] P [kbytes]).1 = .ok txn
      ∧ txn.signatures = [some sig]
      ∧ sigVerify (SdkKeypair.pubkey ⟨kbytes⟩) txn.message sig = true
      ∧ txn.message.recent_blockhash = bh := by
  have hreq : (Message.new_with_blockhash [i1, i2] P bh).requiredSigners = [P] := by
    have hunfold : (Message.new_with_blockhash [i1, i2] P bh).requiredSigners
        = dedupFirstAux [] (P :: ([i1, i2].flatMap fun i =>
            (i.accounts.filter (fun a => a.is_signer)).map (fun a => a.pubkey))) := rfl
    rw [hunfold]
    apply dedupFirstAux_single
    intro x hx
    rw [List.mem_flatMap] at hx
    obtain ⟨i, hi, hxi⟩ := hx
    rw [List.mem_map] at hxi
    obtain ⟨a, ha, hxa⟩ := hxi
    rw [List.mem_filter] at ha
    obtain ⟨hai, hsig⟩ := ha
    subst hxa
    apply hsigners a ?_ hsig
    rw [List.mem_append]
    simp only [List.mem_cons, List.not_mem_nil, or_false] at hi
    rcases hi with rfl | rfl
    · exact Or.inl hai
    · exact Or.inr hai
  have hfb : SdkKeypair.from_bytes kbytes = some ⟨kbytes⟩ := by
    rw [SdkKeypair.from_bytes, if_pos hlen]
  have hpkk : SdkKeypair.pubkey ⟨kbytes⟩ = P := hpk
  have hmrb : (Message.new_with_blockhash [i1, i2] P bh).recent_blockhash = bh := rfl
  have htm : (Transaction.new_unsigned (Message.new_with_blockhash [i1, i2] P bh)).message
      = Message.new_with_blockhash [i1, i2] P bh := rfl
  have hts : (Transaction.new_unsigned (Message.new_with_blockhash [i1, i2] P bh)).signatures
      = [none] := by
    have h1 : (Transaction.new_unsigned (Message.new_with_blockhash [i1, i2] P bh)).signatures
        = List.replicate (Message.new_with_blockhash [i1, i2] P bh).requiredSigners.length
            none := rfl
    rw [h1, hreq]
    rfl
  have hfind : findIdxOpt (fun pk => pk == SdkKeypair.pubkey ⟨kbytes⟩)
      (Message.new_with_blockhash [i1, i2] P bh).requiredSigners = some 0 := by
    rw [hreq, hpkk]
    simp [findIdxOpt]
  have hsign : (Transaction.new_unsigned
      (Message.new_with_blockhash [i1, i2] P bh)).try_partial_sign [⟨kbytes⟩] bh
      = .ok ⟨[some (sdkSign ⟨kbytes⟩ (Message.new_with_blockhash [i1, i2] P bh))],
          Message.new_with_blockhash [i1, i2] P bh⟩ := by
    simp only [Transaction.try_partial_sign, htm, hmrb, if_pos, mapOpt, hfind,
      List.map_cons, List.map_nil, List.zip, List.zipWith, placeSigs, hts, List.set]
  refine ⟨⟨[some (sdkSign ⟨kbytes⟩ (Message.new_with_blockhash [i1, i2] P bh))],
      Message.new_with_blockhash [i1, i2] P bh⟩,
    sdkSign ⟨kbytes⟩ (Message.new_with_blockhash [i1, i2] P bh), ?_, rfl, ?_, rfl⟩
  · simp [build_txn, hbh, mapOpt, hfb, hsign]
  · simp [sigVerify, sdkSign]

/-- C4 witness: the scenario at a concrete healthy client, two concrete
account-free instructions, the all-zero key and its public half as fee
payer. -/
theorem build_txn_two_instructions_one_key_witness :
    ∃ txn sig,
      (build_txn okClient [demoInstr, demoInstr] (List.replicate 32 0)
          [List.replicate 64 0]).1 = .ok txn
      ∧ txn.signatures = [some sig]
      ∧ sigVerify (SdkKeypair.pubkey ⟨List.replicate 64 0⟩) txn.message sig = true
      ∧ txn.message.recent_blockhash = ⟨7⟩ :=
  build_txn_two_instructions_one_key okClient demoInstr demoInstr
    (List.replicate 32 0) (List.replicate 64 0) ⟨7⟩ rfl (by decide) (by decide)
    (by decide)

/-! Claim C3: decode behaviour of get_anchor_account. -/

/-- C3 counterexample: the stored account's bytes 1, 2, 3 do not carry the
discriminator prefix the caller type expects, and get_anchor_account panics
instead of returning a DecodeError value to the caller. -/
theorem get_anchor_decode_mismatch_counterexample :
    (get_anchor_account demoDeserialize okClient (List.replicate 32 1)).1
      = .panicked "called unwrap on an Err value" := by
  decide

/-- C3 (amended): a network failure propagates as a returned error, an
absent account gives ok none, a successful decode gives ok some, and a
decode mismatch aborts by panic rather than returning a DecodeError. -/
theorem get_anchor_account_spec {T : Type}
    (try_deserialize : List Nat → Except String T)
    (client : RpcClient) (addr : Pubkey) :
    (∀ e, client.getAccountWithCommitment addr Commitment.processed = .error e →
      (get_anchor_account try_deserialize client addr).1 = .error e)
    ∧ (client.getAccountWithCommitment addr Commitment.processed = .ok none →
      (get_anchor_account try_deserialize client addr).1 = .ok none)
    ∧ (∀ acc v, client.getAccountWithCommitment addr Commitment.processed = .ok (some acc) →
      try_deserialize acc.data = .ok v →
      (get_anchor_account try_deserialize client addr).1 = .ok (some v))
    ∧ (∀ acc s, client.getAccountWithCommitment addr Commitment.processed = .ok (some acc) →
      try_deserialize acc.data = .error s →
      (get_anchor_account try_deserialize client addr).1
        = .panicked "called unwrap on an Err value") := by
  refine ⟨?_, ?_, ?_, ?_⟩
  · intro e h
    simp [get_anchor_account, h]
  · intro h
    simp [get_anchor_account, h]
  · intro acc v h hd
    simp [get_anchor_account, h, hd]
  · intro acc s h hd
    simp [get_anchor_account, h, hd]

/-- C3 witness: the four branches at concrete collaborators — a failing
client, an absent address, an always-accepting deserializer, and the
discriminator-checking deserializer rejecting the stored bytes. -/
theorem get_anchor_account_spec_witness :
    (get_anchor_account demoDeserialize failingClient (List.replicate 32 1)).1
        = .error ⟨"connection refused"⟩
    ∧ (get_anchor_account demoDeserialize okClient (List.replicate 32 3)).1
        = .ok none
    ∧ (get_anchor_account (fun d => Except.ok d) okClient (List.replicate 32 1)).1
        = .ok (some [1, 2, 3])
    ∧ (get_anchor_account demoDeserialize okClient (List.replicate 32 1)).1
        = .panicked "called unwrap on an Err value" :=
  ⟨(get_anchor_account_spec demoDeserialize failingClient (List.replicate 32 1)).1
      ⟨"connection refused"⟩ rfl,
   (get_anchor_account_spec demoDeserialize okClient (List.replicate 32 3)).2.1 (by rfl),
   (get_anchor_account_spec (fun d => Except.ok d) okClient (List.replicate 32 1)).2.2.1
      ⟨5, [1, 2, 3], List.replicate 32 2⟩ [1, 2, 3] (by rfl) rfl,
   (get_anchor_account_spec demoDeserialize okClient (List.replicate 32 1)).2.2.2
      ⟨5, [1, 2, 3], List.replicate 32 2⟩ "account discriminator mismatch" (by rfl) (by rfl)⟩

/-! Claim C7: absence semantics of get_account. -/

/-- C7: get_account returns ok none when the address holds no account, ok
of the raw data bytes when it does, and a network failure propagates as a
returned error — absence is a non-error outcome distinct from failure. -/
theorem get_account_spec (client : RpcClient) (addr : Pubkey) :
    (client.getAccountWithCommitment addr Commitment.processed = .ok none →
      (get_account client addr).1 = .ok none)
    ∧ (∀ acc, client.getAccountWithCommitment addr Commitment.processed = .ok (some acc) →
      (get_account client addr).1 = .ok (some acc.data))
    ∧ (∀ e, client.getAccountWithCommitment addr Commitment.processed = .error e →
      (get_account client addr).1 = .error e) := by
  refine ⟨?_, ?_, ?_⟩
  · intro h
    simp [get_account, h]
  · intro acc h
    simp [get_account, h]
  · intro e h
    simp [get_account, h]

/-- C7 witness: the three branches at concrete clients — an absent address,
the stored account, and a failing transport. -/
theorem get_account_spec_witness :
    (get_account okClient (List.replicate 32 3)).1 = .ok none
    ∧ (get_account okClient (List.replicate 32 1)).1 = .ok (some [1, 2, 3])
    ∧ (get_account failingClient (List.replicate 32 1)).1
        = .error ⟨"connection refused"⟩ :=
  ⟨(get_account_spec okClient (List.replicate 32 3)).1 (by rfl),
   (get_account_spec okClient (List.replicate 32 1)).2.1
      ⟨5, [1, 2, 3], List.replicate 32 2⟩ (by rfl),
   (get_account_spec failingClient (List.replicate 32 1)).2.2
      ⟨"connection refused"⟩ rfl⟩

/-! Claim C8: preflight skipping in send_without_confirm_txn. -/

/-- C8: every invocation of send_without_confirm_txn submits with a config
whose skip_preflight is true, whatever the client and transaction — the
single recorded request carries exactly that constant config. -/
theorem send_without_confirm_skip_preflight (client : RpcClient) (txn : Transaction) :
    (send_without_confirm_txn client txn).2
        = [RpcCall.sendTransactionWithConfig txn ⟨true, none, none⟩]
    ∧ (∀ t cfg,
        RpcCall.sendTransactionWithConfig t cfg ∈ (send_without_confirm_txn client txn).2 →
        cfg.skip_preflight = true) := by
  refine ⟨rfl, ?_⟩
  intro t cfg hmem
  simp [send_without_confirm_txn] at hmem
  obtain ⟨-, rfl⟩ := hmem
  rfl

/-- C8 witness: the constant config at a concrete client and transaction. -/
theorem send_without_confirm_skip_preflight_witness :
    (send_without_confirm_txn okClient demoTxn).2
        = [RpcCall.sendTransactionWithConfig demoTxn ⟨true, none, none⟩]
    ∧ RpcSendTransactionConfig.skip_preflight ⟨true, none, none⟩ = true :=
  ⟨(send_without_confirm_skip_preflight okClient demoTxn).1,
   (send_without_confirm_skip_preflight okClient demoTxn).2 demoTxn ⟨true, none, none⟩
     (by decide)⟩

/-! Claim C9: the pinned commitment of the single-account read path. -/

/-- C9: both single-account reads query the network at the processed
commitment, whatever the client, address or deserializer — the commitment
is not a parameter the caller can influence even though the network
operation accepts one. -/
theorem read_path_processed_commitment {T : Type}
    (try_deserialize : List Nat → Except String T)
    (client : RpcClient) (addr : Pubkey) :
    (get_account client addr).2
        = [RpcCall.getAccountWithCommitment addr Commitment.processed]
    ∧ (get_anchor_account try_deserialize client addr).2
        = [RpcCall.getAccountWithCommitment addr Commitment.processed] :=
  ⟨rfl, rfl⟩

/-! Claim C10: get_program_accounts_with_filters never returns an error. -/

/-- C10: whatever the network outcome, get_program_accounts_with_filters
never returns through the error branch of its Result — a network failure
is unwrapped into a panic and success is forwarded as ok. -/
theorem get_program_accounts_never_errors (client : RpcClient) (program : Pubkey)
    (filters : Option (List RpcFilterType)) :
    ((get_program_accounts_with_filters client program filters).1.isError = false)
    ∧ (∀ e, client.getProgramAccountsWithConfig program
        ⟨filters, ⟨some UiAccountEncoding.base64Zstd, none⟩, some false⟩ = .error e →
      (get_program_accounts_with_filters client program filters).1
        = .panicked "called unwrap on an Err value")
    ∧ (∀ accounts, client.getProgramAccountsWithConfig program
        ⟨filters, ⟨some UiAccountEncoding.base64Zstd, none⟩, some false⟩ = .ok accounts →
      (get_program_accounts_with_filters client program filters).1 = .ok accounts) := by
  refine ⟨?_, ?_, ?_⟩
  · cases h : client.getProgramAccountsWithConfig program
        ⟨filters, ⟨some UiAccountEncoding.base64Zstd, none⟩, some false⟩ with
    | error e => simp [get_program_accounts_with_filters, h, PanicOr.isError]
    | ok accounts => simp [get_program_accounts_with_filters, h, PanicOr.isError]
  · intro e h
    simp [get_program_accounts_with_filters, h]
  · intro accounts h
    simp [get_program_accounts_with_filters, h]

/-- C10 witness: the panic on a failing transport and the forwarding of a
successful empty result, at concrete clients. -/
theorem get_program_accounts_never_errors_witness :
    (get_program_accounts_with_filters failingClient (List.replicate 32 9) none).1
        = .panicked "called unwrap on an Err value"
    ∧ (get_program_accounts_with_filters okClient (List.replicate 32 9) none).1
        = .ok [] :=
  ⟨(get_program_accounts_never_errors failingClient (List.replicate 32 9) none).2.1
      ⟨"connection refused"⟩ rfl,
   (get_program_accounts_never_errors okClient (List.replicate 32 9) none).2.2 [] rfl⟩
